import Mathlib

/-!
Verification of the delivery-tracking and acknowledgment subsystem of the
Apache Pulsar source connector.  The Go source is shallowly embedded:
pure helpers become Lean functions, the stateful `Source` becomes explicit
state passing, and the external broker client (`pulsar.Client`,
`pulsar.Consumer`) is a parameter supplying the outcome of each external
call.  Positions are byte sequences holding UTF-8 text in the Go code;
they are modelled as `String` at the JSON layer and converted to explicit
byte lists (`utf8Bytes`) where the code treats them as raw bytes
(`pulsar.DeserializeMessageID`).
-/

namespace PulsarConnector

/-- Association-list model of a Go `map` with string keys: lookup of a key. -/
def mapLookup {α : Type} (k : String) : List (String × α) → Option α
  | [] => none
  | (k2, v) :: rest => if k2 = k then some v else mapLookup k rest

/-- Association-list model of a Go `map`: insertion overwrites an existing key. -/
def mapInsert {α : Type} (k : String) (v : α) : List (String × α) → List (String × α)
  | [] => [(k, v)]
  | (k2, v2) :: rest => if k2 = k then (k, v) :: rest else (k2, v2) :: mapInsert k v rest

/-- Association-list model of Go `delete(m, k)`. -/
def mapErase {α : Type} (k : String) : List (String × α) → List (String × α)
  | [] => []
  | (k2, v) :: rest => if k2 = k then rest else (k2, v) :: mapErase k rest

/-- The keys of the association list are pairwise distinct, as in a real Go map. -/
def keysNodup {α : Type} (l : List (String × α)) : Prop := (l.map Prod.fst).Nodup

/-- UTF-8 encoding of one character, as byte values. -/
def utf8EncodeCharNat (c : Char) : List Nat :=
  let n := c.toNat
  if n < 128 then [n]
  else if n < 2048 then [192 + n / 64, 128 + n % 64]
  else if n < 65536 then [224 + n / 4096, 128 + n / 64 % 64, 128 + n % 64]
  else [240 + n / 262144, 128 + n / 4096 % 64, 128 + n / 64 % 64, 128 + n % 64]

/-- The UTF-8 bytes of a string; Go strings are exactly such byte sequences. -/
def utf8Bytes (s : String) : List Nat := s.data.flatMap utf8EncodeCharNat

/-! ## JSON layer: Go encoding/json on the one-field struct `Position` -/

/-- Lowercase hexadecimal digit, as used by Go encoding/json escaping. -/
def hexDigitChar (n : Nat) : Char :=
  if n < 10 then Char.ofNat (48 + n) else Char.ofNat (87 + n)

/-- Numeric value of one hexadecimal digit character. -/
def hexVal (c : Char) : Option Nat :=
  if 48 ≤ c.toNat ∧ c.toNat ≤ 57 then some (c.toNat - 48)
  else if 97 ≤ c.toNat ∧ c.toNat ≤ 102 then some (c.toNat - 87)
  else if 65 ≤ c.toNat ∧ c.toNat ≤ 70 then some (c.toNat - 55)
  else none

/-- Value of a four-digit hexadecimal escape. -/
def hex4 (a b c d : Char) : Option Nat :=
  match hexVal a, hexVal b, hexVal c, hexVal d with
  | some x, some y, some z, some w => some (((x * 16 + y) * 16 + z) * 16 + w)
  | _, _, _, _ => none

/-- Escaping of one character in a Go JSON string literal, following
encoding/json `encodeState.string` with its default HTML escaping: quote,
backslash, newline, carriage return and tab get two-character escapes;
other control characters and the HTML-sensitive characters get `\u00xx`;
U+2028 and U+2029 get `\u202x`; everything else is written verbatim. -/
def escChar (c : Char) : List Char :=
  if c = '"' then ['\\', '"']
  else if c = '\\' then ['\\', '\\']
  else if c = '\n' then ['\\', 'n']
  else if c = '\r' then ['\\', 'r']
  else if c = '\t' then ['\\', 't']
  else if c.toNat < 32 ∨ c = '<' ∨ c = '>' ∨ c = '&' then
    ['\\', 'u', '0', '0', hexDigitChar (c.toNat / 16), hexDigitChar (c.toNat % 16)]
  else if c.toNat = 8232 ∨ c.toNat = 8233 then
    ['\\', 'u', '2', '0', '2', hexDigitChar (c.toNat % 16)]
  else [c]

/-- Escaping of a whole string for a Go JSON string literal. -/
def escapeString (s : String) : List Char := s.data.flatMap escChar

/-- Prepend a decoded character to the result of a string-body parse. -/
def consChar (c : Char) : Option (List Char × List Char) → Option (List Char × List Char) :=
  Option.map (fun x => (c :: x.1, x.2))

/-- Parse the body of a JSON string literal (after the opening quote), as
Go encoding/json `unquoteBytes` does: the standard two-character escapes,
`\uXXXX` with UTF-16 surrogate-pair combination (a lone or badly paired
surrogate becomes U+FFFD), a raw control character is an error, and the
result is the decoded characters plus the input after the closing quote.
The fuel decreases at every decoded character; the wrapper below supplies
enough fuel for any input, so the fuel never runs out. -/
def parseStrBodyF : Nat → List Char → Option (List Char × List Char)
  | 0, _ => none
  | _ + 1, [] => none
  | fuel + 1, c :: rest =>
    if c = '"' then some ([], rest)
    else if c = '\\' then
      match rest with
      | [] => none
      | e :: r =>
        if e = '"' then consChar '"' (parseStrBodyF fuel r)
        else if e = '\\' then consChar '\\' (parseStrBodyF fuel r)
        else if e = '/' then consChar '/' (parseStrBodyF fuel r)
        else if e = 'b' then consChar '\x08' (parseStrBodyF fuel r)
        else if e = 'f' then consChar '\x0c' (parseStrBodyF fuel r)
        else if e = 'n' then consChar '\n' (parseStrBodyF fuel r)
        else if e = 'r' then consChar '\r' (parseStrBodyF fuel r)
        else if e = 't' then consChar '\t' (parseStrBodyF fuel r)
        else if e = 'u' then
          match r with
          | a :: b :: c2 :: d :: r2 =>
            match hex4 a b c2 d with
            | none => none
            | some rr =>
              if rr < 55296 ∨ 57344 ≤ rr then consChar (Char.ofNat rr) (parseStrBodyF fuel r2)
              else
                match r2 with
                | s1 :: s2 :: a2 :: b2 :: c3 :: d2 :: r3 =>
                  if s1 = '\\' ∧ s2 = 'u' then
                    match hex4 a2 b2 c3 d2 with
                    | some rr1 =>
                      if rr < 56320 ∧ 56320 ≤ rr1 ∧ rr1 < 57344 then
                        consChar (Char.ofNat (65536 + (rr - 55296) * 1024 + (rr1 - 56320)))
                          (parseStrBodyF fuel r3)
                      else consChar '�' (parseStrBodyF fuel (s1 :: s2 :: a2 :: b2 :: c3 :: d2 :: r3))
                    | none => consChar '�' (parseStrBodyF fuel (s1 :: s2 :: a2 :: b2 :: c3 :: d2 :: r3))
                  else consChar '�' (parseStrBodyF fuel (s1 :: s2 :: a2 :: b2 :: c3 :: d2 :: r3))
                | other => consChar '�' (parseStrBodyF fuel other)
          | _ => none
        else none
    else if c.toNat < 32 then none
    else consChar c (parseStrBodyF fuel rest)

/-- Parse a JSON string-literal body; one character is decoded per fuel
unit and each decoded character consumes at least one input character, so
length-plus-one fuel always suffices. -/
def parseStrBody (l : List Char) : Option (List Char × List Char) :=
  parseStrBodyF (l.length + 1) l

/-- Skip JSON whitespace. -/
def skipWs : List Char → List Char
  | [] => []
  | c :: rest => if c = ' ' ∨ c = '\t' ∨ c = '\n' ∨ c = '\r' then skipWs rest else c :: rest

/-- Parse the members of a JSON object after the opening brace, with
string-valued members (the only value shape this connector ever encodes
or decodes); the fuel bounds the number of members. -/
def parseMembers : Nat → List (String × String) → List Char →
    Option (List (String × String) × List Char)
  | 0, _, _ => none
  | fuel + 1, acc, input =>
    match skipWs input with
    | '"' :: r1 =>
      match parseStrBody r1 with
      | none => none
      | some (key, r2) =>
        match skipWs r2 with
        | ':' :: r3 =>
          match skipWs r3 with
          | '"' :: r4 =>
            match parseStrBody r4 with
            | none => none
            | some (val, r5) =>
              match skipWs r5 with
              | ',' :: r6 => parseMembers fuel (acc ++ [(String.mk key, String.mk val)]) r6
              | '\x7d' :: r6 => some (acc ++ [(String.mk key, String.mk val)], r6)
              | _ => none
          | _ => none
        | _ => none
    | _ => none

/-- Parse a JSON object with string values, returning its members in order
and the remaining input. -/
def parseObjectChars (input : List Char) : Option (List (String × String) × List Char) :=
  match skipWs input with
  | '\x7b' :: r =>
    match skipWs r with
    | '\x7d' :: r2 => some ([], r2)
    | _ => parseMembers (r.length + 1) [] r
  | _ => none

/-- ASCII lower-casing of one character, modelling the case folding Go
encoding/json uses to match JSON keys to struct fields (full `EqualFold`
restricted to ASCII, which covers the ASCII key of `Position`). -/
def lowerAscii (c : Char) : Char :=
  if 65 ≤ c.toNat ∧ c.toNat ≤ 90 then Char.ofNat (c.toNat + 32) else c

/-- Case-insensitive key comparison used for JSON-key to struct-field matching. -/
def goEqualFold (a b : String) : Bool := a.data.map lowerAscii == b.data.map lowerAscii

/-- The `Position` struct of source.go: one field, JSON tag `subscriptionName`. -/
structure Position where
  subscriptionName : String
deriving DecidableEq, Repr

/-- The characters of the JSON key of the one field of `Position`. -/
def subscriptionNameKey : List Char :=
  ['s', 'u', 'b', 's', 'c', 'r', 'i', 'p', 't', 'i', 'o', 'n', 'N', 'a', 'm', 'e']

/-- The characters produced by Go `json.Marshal` on a `Position` value. -/
def positionJSONChars (p : Position) : List Char :=
  '\x7b' :: '"' :: subscriptionNameKey ++ '"' :: ':' :: '"' ::
    (escapeString p.subscriptionName ++ ['"', '\x7d'])

/-- `Position.ToSDKPosition` of source.go: `json.Marshal` of the struct
(the marshal of this struct cannot fail, so the panic branch is dead). -/
def Position.toSDKPosition (p : Position) : String := String.mk (positionJSONChars p)

/-- `parsePosition` of source.go: `json.Unmarshal` of the position bytes
into a `Position`.  JSON `null` leaves the zero value in place; otherwise
an object is parsed, its keys are matched to the single field
case-insensitively with the last occurrence winning, a missing key leaves
the zero value `""`, and trailing non-whitespace input is an error. -/
def parsePosition (pos : String) : Except String Position :=
  let cs := skipWs pos.data
  if cs.take 4 = ['n', 'u', 'l', 'l'] then
    if skipWs (cs.drop 4) = [] then .ok ⟨""⟩
    else .error "invalid character after top-level value"
  else
    match parseObjectChars cs with
    | none => .error "invalid position JSON"
    | some (fields, rest) =>
      if skipWs rest = [] then
        .ok ⟨fields.foldl
          (fun acc kv => if goEqualFold kv.1 (String.mk subscriptionNameKey) then kv.2 else acc) ""⟩
      else .error "invalid character after top-level value"

/-! ## Protobuf layer: pulsar.DeserializeMessageID

`pulsar.DeserializeMessageID` runs `proto.Unmarshal` of the bytes into the
proto2 message `MessageIdData` (required uint64 ledgerId = 1, required
uint64 entryId = 2, optional int32 partition = 3 with default -1, optional
int32 batch_index = 4 with default -1, further fields irrelevant to the
resulting identifier), then builds a message identifier from those fields.
The wire-format parser below follows protowire: varint, fixed and
length-delimited fields, group skipping for unknown groups, and an error
on truncated input or an invalid field number.
-/

/-- Base-128 varint decoding with the 10-byte bound of protowire. -/
def parseVarintAux : Nat → Nat → Nat → List Nat → Option (Nat × List Nat)
  | 0, _, _, _ => none
  | _ + 1, _, _, [] => none
  | fuel + 1, shift, acc, b :: rest =>
    if b < 128 then some (acc + b * 2 ^ shift, rest)
    else parseVarintAux fuel (shift + 7) (acc + b % 128 * 2 ^ shift) rest

/-- Decode one varint from the front of the input. -/
def parseVarint (bytes : List Nat) : Option (Nat × List Nat) := parseVarintAux 10 0 0 bytes

/-- Value fields of `MessageIdData` seen so far during a wire parse. -/
structure MsgIdFields where
  ledgerId : Option Nat
  entryId : Option Nat
  partition : Option Nat
  batchIndex : Option Nat
deriving DecidableEq, Repr

/-- No field seen yet. -/
def MsgIdFields.init : MsgIdFields := ⟨none, none, none, none⟩

/-- Record a varint field value under its field number; fields other than
ledgerId, entryId, partition and batch_index do not affect the identifier. -/
def MsgIdFields.set (f : MsgIdFields) (fieldNum : Nat) (v : Nat) : MsgIdFields :=
  if fieldNum = 1 then { f with ledgerId := some v }
  else if fieldNum = 2 then { f with entryId := some v }
  else if fieldNum = 3 then { f with partition := some v }
  else if fieldNum = 4 then { f with batchIndex := some v }
  else f

/-- Skip an unknown group field: consume wire-format fields until the
matching end-group tag; the fuel bounds the number of consumed tags. -/
def skipGroup : Nat → Nat → List Nat → Option (List Nat)
  | 0, _, _ => none
  | fuel + 1, gnum, bytes =>
    match parseVarint bytes with
    | none => none
    | some (tag, rest) =>
      let fieldNum := tag / 8
      let wire := tag % 8
      if fieldNum = 0 then none
      else if wire = 0 then
        match parseVarint rest with
        | none => none
        | some (_, r2) => skipGroup fuel gnum r2
      else if wire = 1 then
        if 8 ≤ rest.length then skipGroup fuel gnum (rest.drop 8) else none
      else if wire = 2 then
        match parseVarint rest with
        | none => none
        | some (len, r2) =>
          if len ≤ r2.length then skipGroup fuel gnum (r2.drop len) else none
      else if wire = 3 then
        match skipGroup fuel fieldNum rest with
        | none => none
        | some r2 => skipGroup fuel gnum r2
      else if wire = 4 then
        if fieldNum = gnum then some rest else none
      else if wire = 5 then
        if 4 ≤ rest.length then skipGroup fuel gnum (rest.drop 4) else none
      else none

/-- Parse the sequence of wire-format fields of a `MessageIdData` message,
recording the varint fields that determine the identifier and skipping
everything else; the fuel bounds the number of parsed tags. -/
def parseFields : Nat → MsgIdFields → List Nat → Option MsgIdFields
  | _, acc, [] => some acc
  | 0, _, _ => none
  | fuel + 1, acc, bytes =>
    match parseVarint bytes with
    | none => none
    | some (tag, rest) =>
      let fieldNum := tag / 8
      let wire := tag % 8
      if fieldNum = 0 then none
      else if wire = 0 then
        match parseVarint rest with
        | none => none
        | some (v, r2) => parseFields fuel (acc.set fieldNum v) r2
      else if wire = 1 then
        if 8 ≤ rest.length then parseFields fuel acc (rest.drop 8) else none
      else if wire = 2 then
        match parseVarint rest with
        | none => none
        | some (len, r2) =>
          if len ≤ r2.length then parseFields fuel acc (r2.drop len) else none
      else if wire = 3 then
        match skipGroup (rest.length + 1) fieldNum rest with
        | none => none
        | some r2 => parseFields fuel acc r2
      else if wire = 4 then none
      else if wire = 5 then
        if 4 ≤ rest.length then parseFields fuel acc (rest.drop 4) else none
      else none

/-- Two-complement reading of a 64-bit unsigned value as Go `int64`. -/
def toInt64 (n : Nat) : Int :=
  let m : Nat := n % 2 ^ 64
  if m < 2 ^ 63 then (m : Int) else (m : Int) - 2 ^ 64

/-- Two-complement reading of a 32-bit unsigned value as Go `int32`. -/
def toInt32 (n : Nat) : Int :=
  let m : Nat := n % 2 ^ 32
  if m < 2 ^ 31 then (m : Int) else (m : Int) - 2 ^ 32

/-- A broker message identifier as pulsar-client-go holds it: ledger,
entry, batch index and partition index. -/
structure MessageID where
  ledgerID : Int
  entryID : Int
  batchIdx : Int
  partitionIdx : Int
deriving DecidableEq, Repr

/-- `messageID.String()` of pulsar-client-go:
`fmt.Sprintf` of ledger, entry, partition and batch separated by colons. -/
def MessageID.str (id : MessageID) : String :=
  toString id.ledgerID ++ ":" ++ toString id.entryID ++ ":" ++
    toString id.partitionIdx ++ ":" ++ toString id.batchIdx

/-- `pulsar.DeserializeMessageID`: parse the bytes as `MessageIdData`,
fail if the wire format is invalid or a required field is missing, and
otherwise build the identifier (absent optional fields default to -1). -/
def deserializeMessageID (data : List Nat) : Except String MessageID :=
  match parseFields (data.length + 1) MsgIdFields.init data with
  | none => .error "failed to parse MessageIdData"
  | some f =>
    match f.ledgerId, f.entryId with
    | some l, some e =>
      .ok { ledgerID := toInt64 l, entryID := toInt64 e,
            batchIdx := (f.batchIndex.map toInt32).getD (-1),
            partitionIdx := (f.partition.map toInt32).getD (-1) }
    | _, _ => .error "required fields ledgerId and entryId not set"

/-! ## The Source of source.go -/

/-- A received broker message as the Consumer capability exposes it:
identifier, key, payload, topic and event time (Unix nanoseconds). -/
structure Message where
  id : MessageID
  key : String
  payload : List Nat
  topic : String
  eventTime : Int
deriving DecidableEq, Repr

/-- The configuration fields of the source that its operations read. -/
structure SourceConfig where
  url : String
  topic : String
  subscriptionName : String
  disableLogging : Bool
deriving DecidableEq, Repr

/-- The mutable state of `Source`: the pending map `received` keyed by the
stringified message identifier, whether `consumer` has been assigned, and
the configuration (whose subscription name `Open` may rewrite). -/
structure SourceState where
  received : List (String × Message)
  consumerSet : Bool
  config : SourceConfig
deriving DecidableEq, Repr

/-- Record operation tags of the connector SDK. -/
inductive Operation where
  | create
  | update
  | del
  | snapshot
deriving DecidableEq, Repr

/-- Metadata key `MetadataPulsarTopic` of source.go. -/
def MetadataPulsarTopic : String := "pulsar.topic"

/-- Metadata key the SDK `Metadata.SetCreatedAt` writes to. -/
def MetadataCreatedAt : String := "opencdc.createdAt"

/-- The record handed to the pipeline: position bytes (here the UTF-8 text
they hold), operation tag, metadata map, key bytes and payload bytes. -/
structure SdkRecord where
  position : String
  operation : Operation
  metadata : List (String × String)
  key : List Nat
  payload : List Nat
deriving DecidableEq, Repr

/-- `Source.Read` of source.go, on the path where `consumer.Receive`
yielded the message `msg`: store the message in the pending map under its
stringified identifier (inside the mutex), build the position from the
current subscription name, set the topic and created-at metadata
(`SetCreatedAt` stores the event time as decimal nanoseconds), and return
a create record with the raw key and payload bytes. -/
def sourceRead (s : SourceState) (msg : Message) : SourceState × SdkRecord :=
  let s2 := { s with received := mapInsert msg.id.str msg s.received }
  let position := Position.toSDKPosition ⟨s.config.subscriptionName⟩
  let metadata :=
    mapInsert MetadataCreatedAt (toString msg.eventTime)
      (mapInsert MetadataPulsarTopic msg.topic [])
  (s2, { position := position, operation := .create, metadata := metadata,
         key := utf8Bytes msg.key, payload := msg.payload })

/-- The error cases of `Source.Ack`. -/
inductive AckError where
  | deserializeFailed (e : String)
  | notFound (pos : String)
  | brokerAckFailed (e : String)
deriving DecidableEq, Repr

/-- Atomic steps of `Source.Ack` that touch the mutex or the broker, in
the order the Go code performs them. -/
inductive AckEvent where
  | lock
  | unlock
  | brokerAck (key : String)
deriving DecidableEq, Repr

/-- Decidable equality for `Except`, needed to evaluate outcomes. -/
instance exceptDecEq {e a : Type} [DecidableEq e] [DecidableEq a] :
    DecidableEq (Except e a) := fun x y =>
  match x, y with
  | .ok v, .ok w =>
    if h : v = w then isTrue (by rw [h]) else isFalse (by intro hh; cases hh; exact h rfl)
  | .error v, .error w =>
    if h : v = w then isTrue (by rw [h]) else isFalse (by intro hh; cases hh; exact h rfl)
  | .ok _, .error _ => isFalse (by intro hh; cases hh)
  | .error _, .ok _ => isFalse (by intro hh; cases hh)

/-- The outcome of one `Source.Ack` call: the state afterwards, the
returned error or success, and the ordered trace of mutex and broker
steps. -/
structure AckOutcome where
  state : SourceState
  result : Except AckError Unit
  events : List AckEvent
deriving DecidableEq, Repr

/-- `Source.Ack` of source.go.  The position bytes are deserialized as a
message identifier (before the mutex is taken); on failure the call
returns the deserialize error.  Then the mutex is locked with a deferred
unlock, the pending map is consulted under the stringified identifier; if
present the entry is deleted and `s.consumer.Ack(msg)` is returned — the
deferred unlock runs only after that call has been evaluated, so the
broker acknowledgment happens between the lock and the unlock; if absent
a not-found error mentioning the position is returned.  The broker is a
parameter giving the outcome of `consumer.Ack` per message. -/
def sourceAck (s : SourceState) (pos : String)
    (broker : Message → Except String Unit) : AckOutcome :=
  match deserializeMessageID (utf8Bytes pos) with
  | .error e => ⟨s, .error (.deserializeFailed e), []⟩
  | .ok msgID =>
    match mapLookup msgID.str s.received with
    | some msg =>
      ⟨{ s with received := mapErase msgID.str s.received },
        (broker msg).mapError .brokerAckFailed,
        [.lock, .brokerAck msgID.str, .unlock]⟩
    | none => ⟨s, .error (.notFound pos), [.lock, .unlock]⟩

/-- The error cases of `Source.Open`. -/
inductive OpenError where
  | clientFailed (e : String)
  | subscribeFailed (e : String)
  | positionParseFailed (e : String)
  | subscriptionMismatch (posName cfgName : String)
deriving DecidableEq, Repr

/-- External calls `Source.Open` makes, in order. -/
inductive OpenEvent where
  | createClient
  | subscribe (topic subName : String)
  | closeClient
deriving DecidableEq, Repr

/-- The outcome of one `Source.Open` call. -/
structure OpenOutcome where
  state : SourceState
  result : Except OpenError Unit
  events : List OpenEvent
deriving DecidableEq, Repr

/-- The final subscription-name step of `Source.Open`: an empty name at
this point means a first run, so a freshly generated unique name is
assigned. -/
def openFinish (st : SourceState) (freshName : String) (evs : List OpenEvent) : OpenOutcome :=
  if st.config.subscriptionName = "" then
    ⟨{ st with config := { st.config with subscriptionName := freshName } }, .ok (), evs⟩
  else ⟨st, .ok (), evs⟩

/-- `Source.Open` of source.go.  A client is created (its options are the
configuration knobs, its outcome is the parameter `clientResult`); on
failure Open returns the wrapped error.  Then `client.Subscribe` is called
with the configured topic and subscription name; on failure the client is
closed and Open returns the wrapped error; on success the consumer handle
is stored.  Only then, if a resume position was supplied, it is parsed
(errors propagate as-is), the mismatch between a non-empty configured
subscription name and the decoded one is rejected, and otherwise the
decoded name is adopted.  Finally an empty subscription name is replaced
by a freshly generated one. -/
def sourceOpen (cfg : SourceConfig) (pos : Option String)
    (clientResult : Except String Unit) (subscribeResult : Except String Unit)
    (freshName : String) : OpenOutcome :=
  let s0 : SourceState := { received := [], consumerSet := false, config := cfg }
  match clientResult with
  | .error e => ⟨s0, .error (.clientFailed e), [.createClient]⟩
  | .ok _ =>
    match subscribeResult with
    | .error e =>
      ⟨s0, .error (.subscribeFailed e),
        [.createClient, .subscribe cfg.topic cfg.subscriptionName, .closeClient]⟩
    | .ok _ =>
      let st := { s0 with consumerSet := true }
      let evs := [OpenEvent.createClient, .subscribe cfg.topic cfg.subscriptionName]
      match pos with
      | none => openFinish st freshName evs
      | some ps =>
        match parsePosition ps with
        | .error e => ⟨st, .error (.positionParseFailed e), evs⟩
        | .ok p =>
          if cfg.subscriptionName ≠ "" ∧ cfg.subscriptionName ≠ p.subscriptionName then
            ⟨st, .error (.subscriptionMismatch p.subscriptionName cfg.subscriptionName), evs⟩
          else
            openFinish
              { st with config := { st.config with subscriptionName := p.subscriptionName } }
              freshName evs

/-! ## The bulk-acknowledgment variant

The second source variant keeps `received` as a slice and its `Ack`
ignores the position: it walks every accumulated message, calls
`s.consumer.Ack` on each, and joins every failure with `errors.Join`
instead of returning at the first one.
-/

/-- The loop body of the bulk `Source.Ack`: returns the messages on which
`consumer.Ack` was attempted, in order, and the collected failure
messages, in order, each wrapped as in the Go code. -/
def bulkAckRun : List Message → (Message → Except String Unit) → List Message × List String
  | [], _ => ([], [])
  | msg :: rest, broker =>
    let tail := bulkAckRun rest broker
    match broker msg with
    | .ok _ => (msg :: tail.1, tail.2)
    | .error e => (msg :: tail.1, ("failed to ack message: " ++ e) :: tail.2)

/-- The error value the bulk `Source.Ack` returns: `errors.Join` of the
collected failures, which is nil exactly when no failure was collected. -/
def bulkAckError (received : List Message) (broker : Message → Except String Unit) :
    Option (List String) :=
  match (bulkAckRun received broker).2 with
  | [] => none
  | errs => some errs

/-! ## Round-trip lemmas for the JSON position encoding -/

/-- A hexadecimal digit character produced by `hexDigitChar` decodes to its value. -/
theorem hexVal_hexDigitChar : ∀ d : Nat, d < 16 → hexVal (hexDigitChar d) = some d := by decide

/-- A two-digit `\u00xx` escape decodes to the escaped byte value. -/
theorem hex4_00 (n : Nat) (h : n < 256) :
    hex4 '0' '0' (hexDigitChar (n / 16)) (hexDigitChar (n % 16)) = some n := by
  have h1 : hexVal (hexDigitChar (n / 16)) = some (n / 16) := hexVal_hexDigitChar _ (by omega)
  have h2 : hexVal (hexDigitChar (n % 16)) = some (n % 16) := hexVal_hexDigitChar _ (by omega)
  have h0 : hexVal '0' = some 0 := by decide
  simp only [hex4, h0, h1, h2]
  all_goals (congr 1; omega)

/-- The `\u202x` escapes decode to their code point. -/
theorem hex4_202 (n : Nat) :
    hex4 '2' '0' '2' (hexDigitChar (n % 16)) = some (8224 + n % 16) := by
  have hd : hexVal (hexDigitChar (n % 16)) = some (n % 16) := hexVal_hexDigitChar _ (by omega)
  have e2 : hexVal '2' = some 2 := by decide
  have e0 : hexVal '0' = some 0 := by decide
  simp only [hex4, hd, e2, e0]

/-- Unfolding of the string-body parser on a generic `\u` escape. -/
theorem parseStrBodyF_u_eq (f : Nat) (a b c2 d : Char) (l : List Char) :
    parseStrBodyF (f + 1) ('\\' :: 'u' :: a :: b :: c2 :: d :: l) =
      (match hex4 a b c2 d with
       | none => none
       | some rr =>
         if rr < 55296 ∨ 57344 ≤ rr then consChar (Char.ofNat rr) (parseStrBodyF f l)
         else
           match l with
           | s1 :: s2 :: a2 :: b2 :: c3 :: d2 :: r3 =>
             if s1 = '\\' ∧ s2 = 'u' then
               match hex4 a2 b2 c3 d2 with
               | some rr1 =>
                 if rr < 56320 ∧ 56320 ≤ rr1 ∧ rr1 < 57344 then
                   consChar (Char.ofNat (65536 + (rr - 55296) * 1024 + (rr1 - 56320)))
                     (parseStrBodyF f r3)
                 else consChar '�' (parseStrBodyF f (s1 :: s2 :: a2 :: b2 :: c3 :: d2 :: r3))
               | none => consChar '�' (parseStrBodyF f (s1 :: s2 :: a2 :: b2 :: c3 :: d2 :: r3))
             else consChar '�' (parseStrBodyF f (s1 :: s2 :: a2 :: b2 :: c3 :: d2 :: r3))
           | other => consChar '�' (parseStrBodyF f other)) := rfl

/-- A `\u` escape of a code point below the surrogate range decodes to
that code point. -/
theorem parseStrBodyF_u_low (f : Nat) (a b c2 d : Char) (l : List Char) (rr : Nat)
    (hh : hex4 a b c2 d = some rr) (hlow : rr < 55296) :
    parseStrBodyF (f + 1) ('\\' :: 'u' :: a :: b :: c2 :: d :: l) =
      consChar (Char.ofNat rr) (parseStrBodyF f l) := by
  rw [parseStrBodyF_u_eq, hh]
  exact if_pos (Or.inl hlow)

/-- Decoding inverts the escaping of one character, whatever follows it. -/
theorem parseStrBodyF_escChar (c : Char) (l : List Char) (f : Nat) :
    parseStrBodyF (f + 1) (escChar c ++ l) = consChar c (parseStrBodyF f l) := by
  by_cases h1 : c = '"'
  · subst h1; rfl
  by_cases h2 : c = '\\'
  · subst h2; rfl
  by_cases h3 : c = '\n'
  · subst h3; rfl
  by_cases h4 : c = '\r'
  · subst h4; rfl
  by_cases h5 : c = '\t'
  · subst h5; rfl
  by_cases h6 : c.toNat < 32 ∨ c = '<' ∨ c = '>' ∨ c = '&'
  · have h256 : c.toNat < 256 := by
      rcases h6 with h | h | h | h
      · omega
      · subst h; decide
      · subst h; decide
      · subst h; decide
    have hesc : escChar c =
        ['\\', 'u', '0', '0', hexDigitChar (c.toNat / 16), hexDigitChar (c.toNat % 16)] := by
      simp [escChar, h1, h2, h3, h4, h5, h6]
    rw [hesc, List.cons_append, List.cons_append, List.cons_append, List.cons_append,
      List.cons_append, List.cons_append, List.nil_append,
      parseStrBodyF_u_low f _ _ _ _ l c.toNat (hex4_00 c.toNat h256) (by omega),
      Char.ofNat_toNat]
  by_cases h7 : c.toNat = 8232 ∨ c.toNat = 8233
  · have hesc : escChar c = ['\\', 'u', '2', '0', '2', hexDigitChar (c.toNat % 16)] := by
      simp [escChar, h1, h2, h3, h4, h5, h6, h7]
    have hval : 8224 + c.toNat % 16 = c.toNat := by rcases h7 with h | h <;> omega
    have hh : hex4 '2' '0' '2' (hexDigitChar (c.toNat % 16)) = some c.toNat := by
      rw [hex4_202, hval]
    rw [hesc, List.cons_append, List.cons_append, List.cons_append, List.cons_append,
      List.cons_append, List.cons_append, List.nil_append,
      parseStrBodyF_u_low f _ _ _ _ l c.toNat hh (by rcases h7 with h | h <;> omega),
      Char.ofNat_toNat]
  · have hesc : escChar c = [c] := by simp [escChar, h1, h2, h3, h4, h5, h6, h7]
    have h32 : ¬ c.toNat < 32 := fun hh => h6 (Or.inl hh)
    rw [hesc, List.cons_append, List.nil_append]
    simp only [parseStrBodyF]
    rw [if_neg h1, if_neg h2, if_neg h32]

/-- Every escape produces at least one character. -/
theorem escChar_length_pos (c : Char) : 0 < (escChar c).length := by
  unfold escChar
  repeat' split
  all_goals simp

/-- Escaping a list of characters produces at least as many characters. -/
theorem length_le_length_flatMap_escChar (cs : List Char) :
    cs.length ≤ (cs.flatMap escChar).length := by
  induction cs with
  | nil => simp
  | cons c cs ih =>
    rw [List.flatMap_cons, List.length_append, List.length_cons]
    have := escChar_length_pos c
    omega

/-- Decoding a JSON string literal inverts the Go escaping of any string,
for any sufficient fuel. -/
theorem parseStrBodyF_escape (cs rest : List Char) :
    ∀ fuel : Nat, cs.length < fuel →
      parseStrBodyF fuel (cs.flatMap escChar ++ '"' :: rest) = some (cs, rest) := by
  induction cs with
  | nil =>
    intro fuel h
    obtain ⟨f, rfl⟩ : ∃ f, fuel = f + 1 := ⟨fuel - 1, by omega⟩
    rfl
  | cons c cs ih =>
    intro fuel h
    obtain ⟨f, rfl⟩ : ∃ f, fuel = f + 1 := ⟨fuel - 1, by omega⟩
    rw [List.flatMap_cons, List.append_assoc, parseStrBodyF_escChar,
      ih f (by simp at h; omega)]
    rfl

/-- Decoding a JSON string literal inverts the Go escaping of any string. -/
theorem parseStrBody_escape (cs rest : List Char) :
    parseStrBody (cs.flatMap escChar ++ '"' :: rest) = some (cs, rest) := by
  unfold parseStrBody
  apply parseStrBodyF_escape
  have := length_le_length_flatMap_escChar cs
  rw [List.length_append, List.length_cons]
  omega

/-- Projection of a constructed string. -/
theorem data_stringMk (l : List Char) : (String.mk l).data = l := rfl

/-- Reconstruction of a string from its characters. -/
theorem stringMk_data (s : String) : String.mk s.data = s := rfl

/-- The JSON key characters name the field. -/
theorem subscriptionNameKey_string : String.mk subscriptionNameKey = "subscriptionName" := rfl

/-- Skipping whitespace leaves a quote-headed input unchanged. -/
theorem skipWs_cons_quote (t : List Char) : skipWs ('"' :: t) = '"' :: t := rfl

/-- Skipping whitespace leaves a colon-headed input unchanged. -/
theorem skipWs_cons_colon (t : List Char) : skipWs (':' :: t) = ':' :: t := rfl

/-- Skipping whitespace leaves a closing-brace-headed input unchanged. -/
theorem skipWs_cons_rbrace (t : List Char) : skipWs ('\x7d' :: t) = '\x7d' :: t := rfl

/-- Skipping whitespace of the empty input. -/
theorem skipWs_nil : skipWs [] = [] := rfl

/-- Parsing the unescaped field-name literal yields the key characters. -/
theorem parseStrBody_key (y : List Char) :
    parseStrBody (subscriptionNameKey ++ '"' :: y) = some (subscriptionNameKey, y) := by
  have hk : subscriptionNameKey.flatMap escChar = subscriptionNameKey := by decide
  have h := parseStrBody_escape subscriptionNameKey y
  rwa [hk] at h

/-- Parsing the canonical marshal output of a `Position` yields exactly
its one member and no remaining input. -/
theorem parseObjectChars_canonical (s : String) :
    parseObjectChars (positionJSONChars ⟨s⟩) = some ([("subscriptionName", s)], []) := by
  have h1 : parseObjectChars (positionJSONChars ⟨s⟩) =
      parseMembers
        (('"' :: (subscriptionNameKey ++
          '"' :: ':' :: '"' :: (escapeString s ++ ['"', '\x7d']))).length + 1) []
        ('"' :: (subscriptionNameKey ++
          '"' :: ':' :: '"' :: (escapeString s ++ ['"', '\x7d']))) := rfl
  rw [h1, parseMembers]
  simp only [skipWs_cons_quote, skipWs_cons_colon, skipWs_cons_rbrace, skipWs_nil,
    parseStrBody_key, escapeString, parseStrBody_escape, stringMk_data,
    subscriptionNameKey_string, List.nil_append]

/-- Round trip of the position encoding: parsing the marshalled bytes of
any `Position` value returns exactly that value. -/
theorem parsePosition_round (p : Position) :
    parsePosition p.toSDKPosition = .ok p := by
  obtain ⟨s⟩ := p
  have hobj := parseObjectChars_canonical s
  have hskip : skipWs (positionJSONChars ⟨s⟩) = positionJSONChars ⟨s⟩ := rfl
  have htake : (positionJSONChars ⟨s⟩).take 4 = ['\x7b', '"', 's', 'u'] := rfl
  unfold parsePosition Position.toSDKPosition
  simp only [data_stringMk, hskip, htake, hobj]
  rw [if_neg (by decide), if_pos (skipWs_nil)]
  simp only [List.foldl_cons, List.foldl_nil]
  rw [if_pos (by decide)]

/-! ## Association-list lemmas -/

/-- Looking up a key just inserted finds the inserted value. -/
theorem mapLookup_mapInsert_self {α : Type} (k : String) (v : α) (l : List (String × α)) :
    mapLookup k (mapInsert k v l) = some v := by
  induction l with
  | nil => simp [mapInsert, mapLookup]
  | cons kv rest ih =>
    obtain ⟨k2, v2⟩ := kv
    by_cases h : k2 = k
    · subst h; simp [mapInsert, mapLookup]
    · simp [mapInsert, mapLookup, h, ih]

/-- A key absent from the key list is not found. -/
theorem mapLookup_eq_none_of_not_mem {α : Type} (k : String) (l : List (String × α))
    (h : k ∉ l.map Prod.fst) : mapLookup k l = none := by
  induction l with
  | nil => rfl
  | cons kv rest ih =>
    obtain ⟨k2, v2⟩ := kv
    simp only [List.map_cons, List.mem_cons] at h
    push_neg at h
    have hne : ¬ k2 = k := fun hh => h.1 hh.symm
    simp [mapLookup, hne, ih h.2]

/-- After erasing a key from a map with pairwise-distinct keys, the key is
no longer found. -/
theorem mapLookup_mapErase_self {α : Type} (k : String) (l : List (String × α))
    (h : keysNodup l) : mapLookup k (mapErase k l) = none := by
  induction l with
  | nil => rfl
  | cons kv rest ih =>
    obtain ⟨k2, v2⟩ := kv
    rw [keysNodup, List.map_cons, List.nodup_cons] at h
    by_cases hk : k2 = k
    · subst hk
      simp only [mapErase, if_pos rfl]
      exact mapLookup_eq_none_of_not_mem k2 rest h.1
    · simp [mapErase, hk, mapLookup, ih h.2]

/-- Distinctness of map keys is decidable. -/
instance keysNodupDec {α : Type} (l : List (String × α)) : Decidable (keysNodup l) :=
  inferInstanceAs (Decidable (l.map Prod.fst).Nodup)

/-! ## Concrete fixtures used by the claim witnesses -/

/-- A broker that accepts every acknowledgment. -/
def brokerOk : Message → Except String Unit := fun _ => .ok ()

/-- A broker that rejects every acknowledgment. -/
def brokerFail : Message → Except String Unit := fun _ => .error "broker rejected ack"

/-- A sample configuration. -/
def cfgT : SourceConfig :=
  { url := "pulsar://localhost:6650", topic := "t1", subscriptionName := "s1",
    disableLogging := false }

/-- A sample received message with identifier 1:2:-1:-1, key k1 and
payload hello. -/
def msgT : Message :=
  { id := { ledgerID := 1, entryID := 2, batchIdx := -1, partitionIdx := -1 },
    key := "k1", payload := [104, 101, 108, 108, 111], topic := "t1", eventTime := 5 }

/-- An open source with an empty pending set. -/
def stateT : SourceState := { received := [], consumerSet := true, config := cfgT }

/-- An open source whose pending set holds exactly `msgT`. -/
def stateP : SourceState :=
  { received := [(msgT.id.str, msgT)], consumerSet := true, config := cfgT }

/-- A position whose bytes are a valid serialized `MessageIdData` with
ledgerId 1 and entryId 2 (field 1 varint 1, field 2 varint 2). -/
def posMsgID12 : String := "\x08\x01\x10\x02"

/-! ## Claim theorems -/

/-- Claim C1: the specification states that acknowledging the position
returned by a successful Read succeeds exactly once and removes the
pending entry.  The code contradicts this: Read returns a position
holding only the subscription name as JSON, while Ack deserializes the
position bytes as a broker message identifier, so already the first Ack
of the returned position fails with a deserialize error and the pending
entry stays in place.  This theorem evaluates the code at the failing
input. -/
theorem C1_first_ack_of_read_position_fails :
    (sourceRead stateT msgT).2.position = Position.toSDKPosition ⟨"s1"⟩ ∧
    sourceAck (sourceRead stateT msgT).1 (sourceRead stateT msgT).2.position brokerOk =
      ⟨(sourceRead stateT msgT).1,
        .error (.deserializeFailed "failed to parse MessageIdData"), []⟩ ∧
    mapLookup msgT.id.str (sourceAck (sourceRead stateT msgT).1
      (sourceRead stateT msgT).2.position brokerOk).state.received = some msgT := by
  decide

/-- Claim C2: after a successful Read of message m, the stringified
identifier of m is in the pending set, the returned record is a create
record whose key and payload are the bytes of the message key and
payload, whose metadata holds the broker topic and the event time as
creation timestamp, and whose position decodes to the current
subscription identity. -/
theorem C2_read_record_contents (s : SourceState) (m : Message) :
    mapLookup m.id.str (sourceRead s m).1.received = some m ∧
    (sourceRead s m).2.operation = .create ∧
    (sourceRead s m).2.key = utf8Bytes m.key ∧
    (sourceRead s m).2.payload = m.payload ∧
    mapLookup MetadataPulsarTopic (sourceRead s m).2.metadata = some m.topic ∧
    mapLookup MetadataCreatedAt (sourceRead s m).2.metadata = some (toString m.eventTime) ∧
    parsePosition (sourceRead s m).2.position = .ok ⟨s.config.subscriptionName⟩ := by
  refine ⟨mapLookup_mapInsert_self _ _ _, rfl, rfl, rfl, ?_, ?_,
    parsePosition_round ⟨s.config.subscriptionName⟩⟩
  · show mapLookup MetadataPulsarTopic
      (mapInsert MetadataCreatedAt (toString m.eventTime)
        (mapInsert MetadataPulsarTopic m.topic [])) = some m.topic
    simp [mapInsert, mapLookup, MetadataPulsarTopic, MetadataCreatedAt]
  · show mapLookup MetadataCreatedAt
      (mapInsert MetadataCreatedAt (toString m.eventTime)
        (mapInsert MetadataPulsarTopic m.topic [])) = some (toString m.eventTime)
    simp [mapInsert, mapLookup, MetadataPulsarTopic, MetadataCreatedAt]

/-- Claim C3: encoding any Position value and decoding the result yields
the identical subscription identity, with no error. -/
theorem C3_position_round_trip (p : Position) :
    parsePosition p.toSDKPosition = .ok p :=
  parsePosition_round p

/-- Claim C4 counterexample: with configured subscription name s1 and a
resume position embedding subscription name b, Open does fail with the
mismatch error, but the subscribe call has already been issued, refuting
the statement that no subscribe ever happens on this path. -/
theorem C4_counterexample :
    (sourceOpen cfgT (some (Position.toSDKPosition ⟨"b"⟩)) (.ok ()) (.ok ()) "u1").result =
      .error (.subscriptionMismatch "b" "s1") ∧
    OpenEvent.subscribe "t1" "s1" ∈
      (sourceOpen cfgT (some (Position.toSDKPosition ⟨"b"⟩)) (.ok ()) (.ok ()) "u1").events := by
  decide

/-- Claim C4 amended: if Open is called with a resume position whose
embedded subscription name differs from a non-empty configured
subscription name, Open fails with the configuration-mismatch error, but
only after the subscribe call has already been issued with the configured
name (the code subscribes first and validates the resume position
afterwards). -/
theorem C4_mismatch_fails_after_subscribe (cfg : SourceConfig) (ps : String) (p : Position)
    (fresh : String)
    (h1 : parsePosition ps = .ok p)
    (h2 : cfg.subscriptionName ≠ "")
    (h3 : p.subscriptionName ≠ cfg.subscriptionName) :
    (sourceOpen cfg (some ps) (.ok ()) (.ok ()) fresh).result =
      .error (.subscriptionMismatch p.subscriptionName cfg.subscriptionName) ∧
    (sourceOpen cfg (some ps) (.ok ()) (.ok ()) fresh).events =
      [.createClient, .subscribe cfg.topic cfg.subscriptionName] := by
  unfold sourceOpen
  simp only [h1]
  rw [if_pos ⟨h2, fun hh => h3 hh.symm⟩]
  exact ⟨rfl, rfl⟩

/-- Claim C4 witness: the amended theorem applied at the concrete
mismatching input. -/
theorem C4_mismatch_witness :
    parsePosition (Position.toSDKPosition ⟨"b"⟩) = .ok ⟨"b"⟩ ∧
    cfgT.subscriptionName ≠ "" ∧
    ("b" : String) ≠ cfgT.subscriptionName ∧
    (sourceOpen cfgT (some (Position.toSDKPosition ⟨"b"⟩)) (.ok ()) (.ok ()) "u1").result =
      .error (.subscriptionMismatch "b" "s1") :=
  ⟨by decide, by decide, by decide,
    (C4_mismatch_fails_after_subscribe cfgT (Position.toSDKPosition ⟨"b"⟩) ⟨"b"⟩ "u1"
      (by decide) (by decide) (by decide)).1⟩

/-- Claim C5: an Ack whose position deserializes to a message identifier
that is not a key of the pending set returns a not-found error and leaves
the state unchanged. -/
theorem C5_ack_unknown_not_found (s : SourceState) (pos : String) (mid : MessageID)
    (broker : Message → Except String Unit)
    (h1 : deserializeMessageID (utf8Bytes pos) = .ok mid)
    (h2 : mapLookup mid.str s.received = none) :
    sourceAck s pos broker = ⟨s, .error (.notFound pos), [.lock, .unlock]⟩ := by
  unfold sourceAck
  simp only [h1, h2]

/-- Claim C5 witness: the theorem applied at a position that decodes to
identifier 1:2:-1:-1 while the pending set is empty. -/
theorem C5_ack_unknown_witness :
    deserializeMessageID (utf8Bytes posMsgID12) =
      .ok { ledgerID := 1, entryID := 2, batchIdx := -1, partitionIdx := -1 } ∧
    mapLookup (MessageID.str
      { ledgerID := 1, entryID := 2, batchIdx := -1, partitionIdx := -1 })
      stateT.received = none ∧
    sourceAck stateT posMsgID12 brokerOk =
      ⟨stateT, .error (.notFound posMsgID12), [.lock, .unlock]⟩ :=
  ⟨by decide, by decide,
    C5_ack_unknown_not_found stateT posMsgID12
      { ledgerID := 1, entryID := 2, batchIdx := -1, partitionIdx := -1 } brokerOk
      (by decide) (by decide)⟩

/-- Claim C6: when the pending-set lookup in Ack succeeds but the broker
rejects the acknowledgment, Ack returns the broker-ack error and the
entry is removed from the pending set all the same. -/
theorem C6_broker_failure_entry_removed (s : SourceState) (pos : String) (mid : MessageID)
    (m : Message) (broker : Message → Except String Unit) (e : String)
    (hn : keysNodup s.received)
    (h1 : deserializeMessageID (utf8Bytes pos) = .ok mid)
    (h2 : mapLookup mid.str s.received = some m)
    (h3 : broker m = .error e) :
    (sourceAck s pos broker).result = .error (.brokerAckFailed e) ∧
    (sourceAck s pos broker).state.received = mapErase mid.str s.received ∧
    mapLookup mid.str (sourceAck s pos broker).state.received = none := by
  unfold sourceAck
  simp only [h1, h2]
  exact ⟨by rw [h3]; rfl, trivial, mapLookup_mapErase_self mid.str s.received hn⟩

/-- Claim C6 witness: the theorem applied to a pending set holding
exactly the message 1:2:-1:-1 and a broker that rejects the ack. -/
theorem C6_broker_failure_witness :
    keysNodup stateP.received ∧
    deserializeMessageID (utf8Bytes posMsgID12) =
      .ok { ledgerID := 1, entryID := 2, batchIdx := -1, partitionIdx := -1 } ∧
    mapLookup (MessageID.str
      { ledgerID := 1, entryID := 2, batchIdx := -1, partitionIdx := -1 })
      stateP.received = some msgT ∧
    brokerFail msgT = .error "broker rejected ack" ∧
    (sourceAck stateP posMsgID12 brokerFail).result =
      .error (.brokerAckFailed "broker rejected ack") ∧
    mapLookup (MessageID.str
      { ledgerID := 1, entryID := 2, batchIdx := -1, partitionIdx := -1 })
      (sourceAck stateP posMsgID12 brokerFail).state.received = none := by
  refine ⟨by decide, by decide, by decide, by decide, ?_, ?_⟩
  · exact (C6_broker_failure_entry_removed stateP posMsgID12
      { ledgerID := 1, entryID := 2, batchIdx := -1, partitionIdx := -1 } msgT brokerFail
      "broker rejected ack" (by decide) (by decide) (by decide) (by decide)).1
  · exact (C6_broker_failure_entry_removed stateP posMsgID12
      { ledgerID := 1, entryID := 2, batchIdx := -1, partitionIdx := -1 } msgT brokerFail
      "broker rejected ack" (by decide) (by decide) (by decide) (by decide)).2.2

/-- Claim C7: the specification requires the broker acknowledgment call
to run outside the mutex-protected critical section.  The code contradicts
this: the deferred unlock of Ack runs only after the returned expression
calling the broker acknowledgment has been evaluated, so the broker call
sits strictly between the lock and the unlock in the event trace.  This
theorem evaluates the code at a failing input with one pending message. -/
theorem C7_broker_ack_inside_critical_section :
    (sourceAck stateP posMsgID12 brokerOk).events =
      [.lock, .brokerAck (MessageID.str
        { ledgerID := 1, entryID := 2, batchIdx := -1, partitionIdx := -1 }), .unlock] := by
  decide

/-- Claim C8: the bulk-acknowledgment variant attempts the broker ack for
every accumulated message, never aborting at a failure, and collects all
failure messages in order, reporting them jointly. -/
theorem C8_bulk_ack_collects_all_failures (received : List Message)
    (broker : Message → Except String Unit) :
    (bulkAckRun received broker).1 = received ∧
    (bulkAckRun received broker).2 = received.filterMap
      (fun m => match broker m with
        | .ok _ => none
        | .error e => some ("failed to ack message: " ++ e)) := by
  induction received with
  | nil => exact ⟨rfl, rfl⟩
  | cons m rest ih =>
    cases hb : broker m <;>
      simp [bulkAckRun, hb, ih.1, ih.2]

/-- Claim C9: within one session every record returned by Read carries
the identical position, the JSON serialization of the subscription name
alone, independent of which message was received. -/
theorem C9_position_independent_of_message (s : SourceState) (m1 m2 : Message) :
    (sourceRead s m1).2.position = (sourceRead s m2).2.position ∧
    (sourceRead s m1).2.position = Position.toSDKPosition ⟨s.config.subscriptionName⟩ :=
  ⟨rfl, rfl⟩

/-- Claim C10: when Open fails after a successful subscribe, because the
resume position fails to decode or mismatches the configured name, the
consumer handle stays stored and neither the client nor the consumer is
closed. -/
theorem C10_post_subscribe_failure_keeps_consumer (cfg : SourceConfig) (ps : String)
    (fresh : String)
    (h : (∃ e, parsePosition ps = .error e) ∨
      ∃ p, parsePosition ps = .ok p ∧ cfg.subscriptionName ≠ "" ∧
        p.subscriptionName ≠ cfg.subscriptionName) :
    (∃ err, (sourceOpen cfg (some ps) (.ok ()) (.ok ()) fresh).result = .error err) ∧
    (sourceOpen cfg (some ps) (.ok ()) (.ok ()) fresh).state.consumerSet = true ∧
    OpenEvent.closeClient ∉ (sourceOpen cfg (some ps) (.ok ()) (.ok ()) fresh).events := by
  rcases h with ⟨e, he⟩ | ⟨p, hp, hne, hmm⟩
  · unfold sourceOpen
    simp only [he]
    exact ⟨⟨.positionParseFailed e, rfl⟩, trivial, by simp⟩
  · unfold sourceOpen
    simp only [hp]
    rw [if_pos ⟨hne, fun hh => hmm hh.symm⟩]
    exact ⟨⟨.subscriptionMismatch p.subscriptionName cfg.subscriptionName, rfl⟩, rfl, by simp⟩

/-- Claim C10 witness: the theorem applied to an undecodable resume
position. -/
theorem C10_post_subscribe_failure_witness :
    parsePosition "garbage" = .error "invalid position JSON" ∧
    (sourceOpen cfgT (some "garbage") (.ok ()) (.ok ()) "u2").state.consumerSet = true ∧
    OpenEvent.closeClient ∉ (sourceOpen cfgT (some "garbage") (.ok ()) (.ok ()) "u2").events :=
  ⟨by decide,
    (C10_post_subscribe_failure_keeps_consumer cfgT "garbage" "u2"
      (Or.inl ⟨"invalid position JSON", by decide⟩)).2.1,
    (C10_post_subscribe_failure_keeps_consumer cfgT "garbage" "u2"
      (Or.inl ⟨"invalid position JSON", by decide⟩)).2.2⟩

end PulsarConnector
